import Mathlib

/-!
Verification of the Fittingpy numeric core (files `logic_module_fit.py` and
`gui_module.py`) against its natural-language specification.

The Python code is shallowly embedded: matrices (`numpy` 2-D arrays) become
lists of rows over `ℚ`, mutable handler state becomes the `DataHandler`
structure passed and returned explicitly, and Python exceptions become
explicit `Err` values (an operation returns its resulting state together
with an optional error, matching the partial-mutation behaviour of the
original: state changes made before a raise are kept).
-/

namespace Fittingpy

/-- A raw numeric matrix: list of rows, column 0 is the independent
variable, columns 1.. are channel intensities. -/
abbrev Mat := List (List ℚ)

/-- Error conditions raised by the Python code.  Every error in the source
is a Python `ValueError` (or an uncaught attribute/type error, modelled as
`crash`); the constructors record the distinct raise sites:
`delimiterNotFound` is `ValueError('Delimiter not found')` in `load_file`,
`noDataLoaded` is `ValueError('No data loaded yet')` in `add_data`,
`dimensionMismatch` is numpy's `ValueError` from `np.concatenate` when row
counts disagree (the spec's `DimensionMismatch`), `valueError` is a generic
numpy/library `ValueError` (negative-count `np.linspace`, 2-D input to
`np.convolve`, shape-mismatched block assignment), and
`failedToLoad cause` is the re-raised `ValueError(f'Failed to load data:
{e}')` wrapping an inner failure `e`. -/
inductive Err where
  | delimiterNotFound
  | noDataLoaded
  | dimensionMismatch
  | valueError
  | crash
  | failedToLoad (cause : Err)
deriving DecidableEq

/-- One text line of an input file, abstracted for format detection:
`hasComma` records whether the character ',' occurs in the line, and
`fields` is the result of splitting the line on the delimiter the code
picks for it (',' if present else tab) and applying Python `float` to each
field (`none` when `float` raises `ValueError`). -/
structure Line where
  hasComma : Bool
  fields : List (Option ℚ)
deriving DecidableEq

/-- The delimiter `load_file` chooses for a line:
`',' if ',' in line else '\t'`. -/
def lineDelim (l : Line) : String := if l.hasComma then "," else "\t"

/-- Whether `[float(value) for value in line.split(delimiter)]` succeeds. -/
def lineParses (l : Line) : Bool := l.fields.all Option.isSome

/-- The `for i, line in enumerate(lines)` loop of `DataHandler.load_file`:
each iteration first assigns `delimiter` from the current line, then tries
to parse all fields, breaking on success and counting a header line on
failure.  Returns the final `(header_lines, delimiter)` pair. -/
def detectGo : List Line → Nat → Option String → Nat × Option String
  | [], h, d => (h, d)
  | l :: rest, h, _ =>
    if lineParses l then (h, some (lineDelim l))
    else detectGo rest (h + 1) (some (lineDelim l))

/-- `DataHandler.load_file`: runs the detection loop, then raises
`ValueError('Delimiter not found')` only when `delimiter` is still `None`
(which, because `delimiter` is assigned before the parse attempt, happens
only for a file with no lines). -/
def load_file (ls : List Line) : Except Err (Nat × String) :=
  match detectGo ls 0 none with
  | (_, none) => .error .delimiterNotFound
  | (h, some d) => .ok (h, d)

/-- The mutable state of `DataHandler` (only the fields the numeric core
touches: `data_color` and the palettes are presentation-only). -/
structure DataHandler where
  data_file : Option String
  data_txt : Option Mat
  data_previous : Option Mat
deriving DecidableEq

/-- `m[:, 0]` — the independent-variable column. -/
def col0 (m : Mat) : List ℚ := m.map (fun r => r.headD 0)

/-- `m[:, 1:]` — the channel block. -/
def dropCol (m : Mat) : Mat := m.map (List.drop 1)

/-- `m[:, c]` — one column. -/
def colOf (m : Mat) (c : Nat) : List ℚ := m.map (fun r => r.getD c 0)

/-- `m.shape[1]` for a rectangular matrix (width of the first row). -/
def widthOf (m : Mat) : Nat := (m.headD []).length

/-- Elementwise matrix subtraction (`y_data -= baseline`). -/
def matSub (a b : Mat) : Mat := List.zipWith (List.zipWith (· - ·)) a b

/-- `m[r, c]`. -/
def entry (m : Mat) (r c : Nat) : ℚ := (m.getD r []).getD c 0

/-- Row-wise result of assigning a block into `m[:, 1:]`: each row keeps
its first entry and takes its remaining entries from the given block row. -/
def setBlockRows (m y : Mat) : Mat :=
  List.zipWith (fun r yr => r.take 1 ++ yr) m y

/-- `np.concatenate((current, new), axis=1)` as used by `add_data`:
numpy raises a `ValueError` when `current` is `None` (not an array) and a
shape `ValueError` when the row counts of the two blocks differ; otherwise
rows are concatenated pairwise. -/
def npConcatCols : Option Mat → Mat → Except Err Mat
  | none, _ => .error .valueError
  | some a, b =>
    if a.length = b.length then .ok (List.zipWith (· ++ ·) a b)
    else .error .dimensionMismatch

/-- `DataHandler.load_data`, given the outcome `pr` of
`np.loadtxt(file_path, delimiter, skiprows)` on the file: on success it
assigns `data_txt` and `data_file` (and touches nothing else — in
particular `data_previous` is left as it was); on failure it re-raises
`ValueError('Failed to load data: ...')` leaving the state unchanged. -/
def load_data (d : DataHandler) (path : String) (pr : Except Err Mat) :
    DataHandler × Option Err :=
  match pr with
  | .error e => (d, some (.failedToLoad e))
  | .ok m => ({ d with data_txt := some m, data_file := some path }, none)

/-- `DataHandler.add_data`, given the outcome `pr` of `np.loadtxt` on the
appended file: first the `data_file is None` guard
(`ValueError('No data loaded yet')`), then
`np.concatenate((data_txt, new[:, 1:]), axis=1)`; any exception inside the
`try` is re-raised as `ValueError('Failed to load data: ...')` with no
state change, and only on success are `data_txt` and `data_file`
assigned. -/
def add_data (d : DataHandler) (path : String) (pr : Except Err Mat) :
    DataHandler × Option Err :=
  if d.data_file.isNone then (d, some .noDataLoaded)
  else
    match pr with
    | .error e => (d, some (.failedToLoad e))
    | .ok newM =>
      match npConcatCols d.data_txt (dropCol newM) with
      | .error e => (d, some (.failedToLoad e))
      | .ok c => ({ d with data_txt := some c, data_file := some path }, none)

/-- `FitConfApp.apply_undo`: when `data_previous` is present, copy it back
into `data_txt` and clear it (returned flag `true`); otherwise report the
non-fatal "No previous data to undo" condition (flag `false`) leaving the
state unchanged. -/
def apply_undo (d : DataHandler) : DataHandler × Bool :=
  match d.data_previous with
  | some p => ({ d with data_txt := some p, data_previous := none }, true)
  | none => (d, false)

/-- `baseline_points.sort(reverse=True)` — Python's stable sort in
descending order (on `ℚ`, any sort by `≥` agrees with it). -/
def sortDesc (l : List ℚ) : List ℚ := List.insertionSort (· ≥ ·) l

/-- The inner loop of `np.argmin(np.abs(x_data - point))`, scanning the
remaining entries while holding the index and value of the best candidate
so far; numpy keeps the first occurrence of the minimum, hence the strict
comparison. -/
def argminAbsGo (p : ℚ) : List ℚ → Nat → Nat → ℚ → Nat
  | [], _, best, _ => best
  | x :: rest, i, best, bestv =>
    if |x - p| < bestv then argminAbsGo p rest (i + 1) i |x - p|
    else argminAbsGo p rest (i + 1) best bestv

/-- `np.argmin(np.abs(xs - p))`: index of the first entry of `xs` at
minimal absolute distance from `p` (numpy raises on an empty array; that
case is unreachable for a loaded matrix and is given index 0 here). -/
def argminAbs (xs : List ℚ) (p : ℚ) : Nat :=
  match xs with
  | [] => 0
  | x :: rest => argminAbsGo p rest 1 0 |x - p|

/-- The anchor sequence `apply_baseline` actually maps: the user anchors
sorted by `baseline_points.sort(reverse=True)` with
`baseline_points.insert(0, x_data[0])` prepended. -/
def normalizedAnchors (m : Mat) (pts : List ℚ) : List ℚ :=
  (col0 m).headD 0 :: sortDesc pts

/-- Modelled from the spec: the anchor sequence §4.4 step 1 describes —
"Parse and sort `anchor_positions` ascending; prepend the dataset's first
independent-variable sample as an implicit leading anchor." -/
def normalizedAnchorsSpec (m : Mat) (pts : List ℚ) : List ℚ :=
  (col0 m).headD 0 :: List.insertionSort (· ≤ ·) pts

/-- `baseline_index = [np.argmin(np.abs(x_data - point)) for point in
baseline_points]`. -/
def anchorIndices (m : Mat) (pts : List ℚ) : List Nat :=
  (normalizedAnchors m pts).map (argminAbs (col0 m))

/-- `np.linspace(a, b, n)` with default endpoint: raises `ValueError` for
a negative sample count, else returns `n` evenly spaced samples from `a`
to `b` inclusive. -/
def npLinspace (a b : ℚ) (n : ℤ) : Except Err (List ℚ) :=
  if n < 0 then .error .valueError
  else if n = 0 then .ok []
  else if n = 1 then .ok [a]
  else .ok ((List.range n.toNat).map (fun i => a + (b - a) * i / ((n : ℚ) - 1)))

/-- `v[a:b] = vals` for `a ≤ b ≤ v.length` and `vals.length = b - a`. -/
def setSlice (v : List ℚ) (a b : Nat) (vals : List ℚ) : List ℚ :=
  v.take a ++ vals ++ v.drop b

/-- The `for index in range(1, len(baseline_index))` loop of
`apply_baseline` for one channel: walks consecutive pairs of
(anchor row index, channel value at that row), writes
`np.linspace(value_prev, value_next, next_idx - prev_idx)` into the slice
`[prev_idx : next_idx]` of the accumulated baseline column, and propagates
the `ValueError` `np.linspace` raises when the index difference is
negative. -/
def blLoop : List (Nat × ℚ) → List ℚ → Except Err (List ℚ)
  | [], acc => .ok acc
  | [_], acc => .ok acc
  | (a, va) :: (b, vb) :: rest, acc =>
    match npLinspace va vb ((b : ℤ) - (a : ℤ)) with
    | .error e => .error e
    | .ok bl => blLoop ((b, vb) :: rest) (setSlice acc a b bl)

/-- The baseline column for one channel: the segment loop run on the
channel's values at the anchor rows (`baseline_values[:, i]`), starting
from `np.zeros_like` of the channel. -/
def baselineCol (ycol : List ℚ) (idx : List Nat) : Except Err (List ℚ) :=
  blLoop (idx.map (fun i => (i, ycol.getD i 0))) (List.replicate ycol.length 0)

/-- The `for i in range(baseline_values.shape[1])` loop: one baseline
column per channel (channels are independent in the source loop, so the
assembled `baseline` matrix is exactly these columns side by side). -/
def collectCols (ycols : List (List ℚ)) (idx : List Nat) :
    Except Err (List (List ℚ)) :=
  match ycols with
  | [] => .ok []
  | c :: rest =>
    match baselineCol c idx with
    | .error e => .error e
    | .ok b =>
      match collectCols rest idx with
      | .error e => .error e
      | .ok bs => .ok (b :: bs)

/-- Reassemble a list of columns into a matrix with the given row count. -/
def transposeTo (cols : List (List ℚ)) (rows : Nat) : Mat :=
  (List.range rows).map (fun r => cols.map (fun col => col.getD r 0))

/-- The numeric body of `FitConfApp.apply_baseline` on a loaded matrix,
with the anchor text already parsed into `pts` (the claims quantify over
parseable anchor lists; an unparseable text fails before any of this
runs).  Any `ValueError` raised inside the `try` (only `np.linspace` on a
negative count) reaches the `except ValueError` handler before
`y_data -= baseline`, so the matrix is returned unchanged with the error;
on success the assembled baseline is subtracted from the channel block in
place. -/
def applyBaselineM (m : Mat) (pts : List ℚ) : Mat × Option Err :=
  let y := dropCol m
  let idx := anchorIndices m pts
  match collectCols ((List.range (widthOf y)).map (colOf y)) idx with
  | .error e => (m, some e)
  | .ok cols => (setBlockRows m (matSub y (transposeTo cols y.length)), none)

/-- `FitConfApp.apply_baseline` at the session level: reads
`data_handler.data_txt` (an uncaught attribute error — `crash` — when no
data is loaded), runs the numeric body, and writes the result back.  It
never touches `data_previous` or `data_file`. -/
def apply_baseline (d : DataHandler) (pts : List ℚ) :
    DataHandler × Option Err :=
  match d.data_txt with
  | none => (d, some .crash)
  | some m =>
    let p := applyBaselineM m pts
    ({ d with data_txt := some p.1 }, p.2)

/-- Boolean check that a list of indices is non-decreasing. -/
def nonDecreasing : List Nat → Bool
  | [] => true
  | [_] => true
  | a :: b :: rest => a ≤ b && nonDecreasing (b :: rest)

/-- The smoothing choice read from the `smooth_combobox` (a read-only
combobox whose values are 'None', 'Savitzky-Golay', 'Gaussian' and
'Moving Average'); the window cases carry the integer read from
`smooth_smt`.  The Gaussian sigma is the literal `1.0` in the source. -/
inductive SmoothCase where
  | sNone
  | savgol (window : ℤ)
  | gaussian
  | movingAverage (window : ℤ)
deriving DecidableEq

/-- A numpy array value as far as the smoothing code can observe it: the
2-D channel blocks it slices, or the 1-D vector `np.convolve` would
return. -/
inductive NpArr where
  | one (xs : List ℚ)
  | two (m : Mat)
deriving DecidableEq

/-- 1-D discrete convolution in numpy's `mode='valid'` (the longer input
is scanned by the reversed shorter one over full overlaps). -/
def conv1Valid (a v : List ℚ) : List ℚ :=
  let x := if v.length ≤ a.length then a else v
  let w := if v.length ≤ a.length then v else a
  (List.range (x.length + 1 - w.length)).map (fun k =>
    ((List.range w.length).map
      (fun j => x.getD (k + w.length - 1 - j) 0 * w.getD j 0)).sum)

/-- `np.convolve(a, kernel, mode='valid')`: numpy requires its first
argument to be at most 1-dimensional and raises
`ValueError('object too deep for desired array')` on a 2-D input — which
is what the Moving Average branch of `apply_smooth` feeds it. -/
def npConvolve (a : NpArr) (v : List ℚ) : Except Err (List ℚ) :=
  match a with
  | .one xs => .ok (conv1Valid xs v)
  | .two _ => .error .valueError

/-- `np.pad(xs, (k, k), mode='edge')` on a 1-D array: replicate the
boundary values `k` times on each side. -/
def npPadEdge (xs : List ℚ) (k : Nat) : List ℚ :=
  List.replicate k (xs.headD 0) ++ xs ++ List.replicate k (xs.getLastD 0)

/-- The `y_data` each branch of `apply_smooth` computes from the snapshot
block `data_previous[:, 1:]`.  The scipy filters `savgol_filter(·, window,
polyorder=2, axis=0)` and `gaussian_filter1d(·, sigma=1.0, axis=0)` are
external collaborators passed in as the functions `sg` (applied to the
adjusted window) and `gf`; the branch arithmetic around them — the
odd/minimum window adjustment, the `max(3, ·)`, the `window < 1` clamp,
the kernel `np.ones(w)/w` and the convolve/pad chain — is the source's. -/
def smoothY (sg : Nat → Mat → Mat) (gf : Mat → Mat) (c : SmoothCase)
    (yprev : Mat) : Except Err NpArr :=
  match c with
  | .sNone => .ok (.two yprev)
  | .savgol w =>
    let w1 := if w % 2 = 0 then w + 1 else w
    .ok (.two (sg (max 3 w1).toNat yprev))
  | .gaussian => .ok (.two (gf yprev))
  | .movingAverage w =>
    let wA := if w < 1 then 1 else w
    match npConvolve (.two yprev) (List.replicate wA.toNat (1 / (wA : ℚ))) with
    | .error e => .error e
    | .ok cv => .ok (.one (npPadEdge cv (wA / 2).toNat))

/-- The shape data of a matrix that a block assignment can depend on:
per row, its first entry (as a one-element slice) and its length. -/
def skel (m : Mat) : List (List ℚ × Nat) := m.map (fun r => (r.take 1, r.length))

/-- `data_txt[:, 1:] = y_data`: numpy assigns a 2-D right-hand side when
its shape matches the block's shape exactly (row lengths are compared as
lists: same row count and each target row one wider than its source row),
broadcasts a 1-D right-hand side across the rows when its length matches
the block width of every row, and raises a shape `ValueError`
otherwise. -/
def npAssignBlock (m : Mat) (y : NpArr) : Except Err Mat :=
  match y with
  | .two ym =>
    if m.map List.length = ym.map (fun r => r.length + 1)
    then .ok (setBlockRows m ym) else .error .valueError
  | .one row =>
    if m.map List.length = List.replicate m.length (row.length + 1)
    then .ok (m.map (fun r => r.take 1 ++ row)) else .error .valueError

/-- `FitConfApp.apply_smooth`: captures `data_previous =
data_txt.copy()` only when no snapshot exists, computes `y_data` from the
snapshot's channel block, and assigns it into `data_txt[:, 1:]`.  An
exception raised after the capture (the Moving Average `np.convolve`, or
a shape mismatch at the assignment) propagates with the snapshot already
taken — the partial mutation of the original.  When no data is loaded the
Python code dies on `None.copy()` (`crash`). -/
def applySmooth (sg : Nat → Mat → Mat) (gf : Mat → Mat) (c : SmoothCase)
    (d : DataHandler) : DataHandler × Option Err :=
  match d.data_txt with
  | none => (d, some .crash)
  | some cur =>
    let prev := d.data_previous.getD cur
    let d1 := { d with data_previous := some prev }
    match smoothY sg gf c (dropCol prev) with
    | .error e => (d1, some e)
    | .ok y =>
      match npAssignBlock cur y with
      | .error e => (d1, some e)
      | .ok cur2 => ({ d1 with data_txt := some cur2 }, none)

/-- Channel trace `i` of `PlotHandler.update_plot`:
`y_data[:, i] = data_txt[:, i + 1] - data_txt[1, i + 1] + offset * i`. -/
def trace (m : Mat) (offset : ℚ) (i : Nat) : List ℚ :=
  (colOf m (i + 1)).map (fun v => v - entry m 1 (i + 1) + offset * i)

/-- The offset-stacking projection of `PlotHandler.update_plot`: one trace
per channel (`range(0, data_txt.shape[1] - 1)`), a pure function of the
matrix and the offset. -/
def project (m : Mat) (offset : ℚ) : List (List ℚ) :=
  (List.range (widthOf m - 1)).map (trace m offset)

/-- The independent-variable column of the current matrix, when loaded. -/
def curCol0 (d : DataHandler) : Option (List ℚ) := d.data_txt.map col0

/-! ## Helper lemmas -/

theorem getD_map_lt {α β : Type} (f : α → β) (l : List α) (n : Nat) (d : β)
    (d' : α) (h : n < l.length) : (l.map f).getD n d = f (l.getD n d') := by
  induction l generalizing n with
  | nil => simp at h
  | cons x xs ih =>
    cases n with
    | zero => rfl
    | succ k => exact ih k (by simpa using h)

theorem range_getD (k i : Nat) (h : i < k) : (List.range k).getD i 0 = i := by
  rw [List.getD_eq_getElem _ _ (by simpa using h)]
  simp

theorem colOf_getD (m : Mat) (c r : Nat) (h : r < m.length) :
    (colOf m c).getD r 0 = entry m r c := by
  unfold colOf entry
  rw [getD_map_lt _ _ _ _ [] h]

theorem npLinspace_ok (a b : ℚ) (n : ℤ) (h : ¬ n < 0) :
    ∃ v, npLinspace a b n = .ok v := by
  unfold npLinspace
  rw [if_neg h]
  split
  · exact ⟨_, rfl⟩
  · split
    · exact ⟨_, rfl⟩
    · exact ⟨_, rfl⟩

theorem blLoop_ok (l : List (Nat × ℚ)) (acc : List ℚ)
    (h : nonDecreasing (l.map Prod.fst) = true) :
    ∃ v, blLoop l acc = .ok v := by
  induction l generalizing acc with
  | nil => exact ⟨acc, rfl⟩
  | cons p l ih =>
    match p, l with
    | _, [] => exact ⟨acc, rfl⟩
    | (a, va), (b, vb) :: rest =>
      simp only [List.map_cons, nonDecreasing, Bool.and_eq_true,
        decide_eq_true_eq] at h
      obtain ⟨bl, hbl⟩ := npLinspace_ok va vb ((b : ℤ) - (a : ℤ)) (by omega)
      simp only [blLoop, hbl]
      exact ih _ (by simp only [List.map_cons, nonDecreasing]; exact h.2)

theorem baselineCol_ok (ycol : List ℚ) (idx : List Nat)
    (h : nonDecreasing idx = true) : ∃ v, baselineCol ycol idx = .ok v := by
  unfold baselineCol
  refine blLoop_ok _ _ ?_
  have : (idx.map (fun i => (i, ycol.getD i 0))).map Prod.fst = idx := by
    simp [List.map_map, Function.comp_def]
  rw [this]; exact h

theorem collectCols_ok (ycols : List (List ℚ)) (idx : List Nat)
    (h : nonDecreasing idx = true) : ∃ v, collectCols ycols idx = .ok v := by
  induction ycols with
  | nil => exact ⟨[], rfl⟩
  | cons c rest ih =>
    obtain ⟨b, hb⟩ := baselineCol_ok c idx h
    obtain ⟨bs, hbs⟩ := ih
    exact ⟨b :: bs, by simp only [collectCols, hb, hbs]⟩

theorem take_one_headD (r s : List ℚ) (h : r.take 1 = s.take 1) :
    r.headD 0 = s.headD 0 := by
  cases r with
  | nil =>
    cases s with
    | nil => rfl
    | cons b bs => simp at h
  | cons a as =>
    cases s with
    | nil => simp at h
    | cons b bs => simpa using h

theorem skel_eq_nil {m : Mat} (h : skel m = ([] : List (List ℚ × Nat))) :
    m = [] := by
  cases m with
  | nil => rfl
  | cons r rs => simp [skel] at h

theorem col0_eq_of_skel {c m : Mat} (h : skel c = skel m) : col0 c = col0 m := by
  induction c generalizing m with
  | nil =>
    rw [skel_eq_nil h.symm]
  | cons r c' ih =>
    cases m with
    | nil => simp [skel] at h
    | cons s m' =>
      simp only [skel, List.map_cons, List.cons.injEq, Prod.mk.injEq] at h
      simp only [col0, List.map_cons]
      rw [take_one_headD r s h.1.1]
      exact congrArg _ (ih (by simpa [skel] using h.2))

theorem skel_length {c m : Mat} (h : skel c = skel m) : c.length = m.length := by
  have := congrArg List.length h
  simpa [skel] using this

theorem skel_rowLengths {c m : Mat} (h : skel c = skel m) :
    c.map List.length = m.map List.length := by
  have := congrArg (List.map Prod.snd) h
  simpa [skel, List.map_map, Function.comp_def] using this

theorem setBlockRows_congr {c m : Mat} (ym : Mat) (h : skel c = skel m) :
    setBlockRows c ym = setBlockRows m ym := by
  induction c generalizing m ym with
  | nil =>
    rw [skel_eq_nil h.symm]
  | cons r c' ih =>
    cases m with
    | nil => simp [skel] at h
    | cons s m' =>
      cases ym with
      | nil => rfl
      | cons yr yrs =>
        simp only [skel, List.map_cons, List.cons.injEq, Prod.mk.injEq] at h
        simp only [setBlockRows, List.zipWith_cons_cons]
        rw [h.1.1]
        exact congrArg _ (ih yrs (by simpa [skel] using h.2))

theorem mapTakeRow_congr {c m : Mat} (row : List ℚ) (h : skel c = skel m) :
    c.map (fun r => r.take 1 ++ row) = m.map (fun r => r.take 1 ++ row) := by
  induction c generalizing m with
  | nil =>
    rw [skel_eq_nil h.symm]
  | cons r c' ih =>
    cases m with
    | nil => simp [skel] at h
    | cons s m' =>
      simp only [skel, List.map_cons, List.cons.injEq, Prod.mk.injEq] at h
      simp only [List.map_cons]
      rw [h.1.1]
      exact congrArg _ (ih (by simpa [skel] using h.2))

theorem npAssignBlock_congr {c m : Mat} (y : NpArr) (h : skel c = skel m) :
    npAssignBlock c y = npAssignBlock m y := by
  cases y with
  | two ym =>
    simp only [npAssignBlock, skel_rowLengths h, setBlockRows_congr ym h]
  | one row =>
    simp only [npAssignBlock, skel_rowLengths h, skel_length h,
      mapTakeRow_congr row h]

theorem skel_setBlockRows (m ym : Mat)
    (hc : m.map List.length = ym.map (fun r => r.length + 1)) :
    skel (setBlockRows m ym) = skel m := by
  induction m generalizing ym with
  | nil => rfl
  | cons r rs ih =>
    cases ym with
    | nil => simp at hc
    | cons yr yrs =>
      simp only [List.map_cons, List.cons.injEq] at hc
      obtain ⟨x, r', rfl⟩ : ∃ x r', r = x :: r' := by
        cases r with
        | nil => simp at hc
        | cons x r' => exact ⟨x, r', rfl⟩
      simp only [setBlockRows, List.zipWith_cons_cons, skel, List.map_cons,
        List.cons.injEq, Prod.mk.injEq]
      refine ⟨⟨by simp, ?_⟩, ih yrs hc.2⟩
      have := hc.1
      simp only [List.length_cons] at this ⊢
      simp [this]

theorem skel_mapTakeRow (m : Mat) (row : List ℚ)
    (hc : m.map List.length = List.replicate m.length (row.length + 1)) :
    skel (m.map (fun r => r.take 1 ++ row)) = skel m := by
  induction m with
  | nil => rfl
  | cons r rs ih =>
    simp only [List.map_cons, List.length_cons, List.replicate_succ,
      List.cons.injEq] at hc
    obtain ⟨x, r', rfl⟩ : ∃ x r', r = x :: r' := by
      cases r with
      | nil => simp at hc
      | cons x r' => exact ⟨x, r', rfl⟩
    simp only [List.map_cons, skel, List.cons.injEq, Prod.mk.injEq]
    refine ⟨⟨by simp, ?_⟩, ih hc.2⟩
    have := hc.1
    simp only [List.length_cons] at this ⊢
    simp [this]

theorem npAssignBlock_ok_skel {m : Mat} {y : NpArr} {c : Mat}
    (h : npAssignBlock m y = .ok c) : skel c = skel m := by
  cases y with
  | two ym =>
    simp only [npAssignBlock] at h
    split_ifs at h with hc
    simp only [Except.ok.injEq] at h
    rw [← h]
    exact skel_setBlockRows m ym hc
  | one row =>
    simp only [npAssignBlock] at h
    split_ifs at h with hc
    simp only [Except.ok.injEq] at h
    rw [← h]
    exact skel_mapTakeRow m row hc

theorem col0_setBlockRows (m z : Mat) (hlen : m.length ≤ z.length)
    (hne : ∀ r ∈ m, r ≠ []) : col0 (setBlockRows m z) = col0 m := by
  induction m generalizing z with
  | nil => rfl
  | cons r rs ih =>
    cases z with
    | nil => simp at hlen
    | cons z0 zs =>
      obtain ⟨x, r', rfl⟩ : ∃ x r', r = x :: r' := by
        cases r with
        | nil => exact absurd rfl (hne [] (by simp))
        | cons x r' => exact ⟨x, r', rfl⟩
      simp only [setBlockRows, List.zipWith_cons_cons, col0, List.map_cons]
      refine congrArg₂ _ (by simp) ?_
      exact ih zs (by simpa using hlen) (fun r hr => hne r (by simp [hr]))

theorem applySmooth_loaded (sg : Nat → Mat → Mat) (gf : Mat → Mat)
    (c : SmoothCase) (f : Option String) (m : Mat) (pv : Option Mat) :
    applySmooth sg gf c ⟨f, some m, pv⟩
      = match smoothY sg gf c (dropCol (pv.getD m)) with
        | .error e => (⟨f, some m, some (pv.getD m)⟩, some e)
        | .ok y =>
          match npAssignBlock m y with
          | .error e => (⟨f, some m, some (pv.getD m)⟩, some e)
          | .ok cur2 => (⟨f, some cur2, some (pv.getD m)⟩, none) := rfl

/-! ## Claims -/

/-- C5: the spec says format detection fails with a `ParseError` for every
file in which no line parses as all-numeric fields, "e.g., empty or
entirely non-numeric file".  The code assigns `delimiter` before
attempting the parse, so after the loop `delimiter` is `None` only for an
empty file: a one-line entirely non-numeric file (no comma, so the tab
delimiter is chosen and the parse fails) returns `(1, '\t')` instead of
raising, while only the empty file raises. -/
theorem C5_detection_returns_on_nonnumeric :
    load_file [⟨false, [none]⟩] = .ok (1, "\t")
    ∧ load_file [] = .error .delimiterNotFound :=
  ⟨by with_unfolding_all rfl, rfl⟩

/-- C1: appending a file whose parsed matrix has a row count different
from the loaded matrix's fails (numpy's dimension-mismatch `ValueError`
from `np.concatenate`, re-raised as `Failed to load data` — the failure
the spec names `DimensionMismatch`), and the handler state is returned
exactly as it was: no column is appended, the matrix and recorded source
path are unchanged. -/
theorem C1_append_dim_mismatch (d : DataHandler) (cur newM : Mat)
    (path : String) (hf : d.data_file.isSome) (ht : d.data_txt = some cur)
    (hr : newM.length ≠ cur.length) :
    add_data d path (.ok newM) = (d, some (.failedToLoad .dimensionMismatch)) := by
  obtain ⟨p0, hp0⟩ := Option.isSome_iff_exists.mp hf
  have hlen : ¬ (cur.length = (dropCol newM).length) := by
    simp only [dropCol, List.length_map]
    omega
  simp only [add_data, hp0, ht, Option.isNone_some, Bool.false_eq_true,
    if_false, npConcatCols, if_neg hlen]

/-- Witness for C1 at the spec's scenario: a 3-row loaded dataset and a
2-row appended file. -/
theorem C1_append_dim_mismatch_witness :
    ((⟨some "a", some [[1,2],[3,4],[5,6]], none⟩ : DataHandler).data_file.isSome)
    ∧ ([[1,9],[2,9]] : Mat).length ≠ ([[1,2],[3,4],[5,6]] : Mat).length
    ∧ add_data ⟨some "a", some [[1,2],[3,4],[5,6]], none⟩ "b" (.ok [[1,9],[2,9]])
        = (⟨some "a", some [[1,2],[3,4],[5,6]], none⟩,
            some (.failedToLoad .dimensionMismatch)) :=
  ⟨by decide, by decide,
    C1_append_dim_mismatch _ _ _ "b" (by decide) rfl (by decide)⟩

/-- C6 counterexample: `load_data` does not clear the snapshot.  A handler
holding a snapshot `[[9,9]]` from an earlier uncommitted mutation still
holds it after a fresh successful load, and an undo immediately after the
load does not report "nothing to undo" — it restores the stale pre-load
snapshot. -/
theorem C6_counterexample :
    ((load_data ⟨some "a", some [[1,2]], some [[9,9]]⟩ "b" (.ok [[5,6]])).1).data_previous
        = some [[9,9]]
    ∧ (apply_undo (load_data ⟨some "a", some [[1,2]], some [[9,9]]⟩ "b" (.ok [[5,6]])).1).2
        = true
    ∧ ((apply_undo (load_data ⟨some "a", some [[1,2]], some [[9,9]]⟩ "b" (.ok [[5,6]])).1).1).data_txt
        = some [[9,9]] :=
  ⟨rfl, rfl, rfl⟩

/-- C6 amended: for every handler state and successfully parsed file,
`load_data` replaces the current matrix wholesale with the parser's result
and records the path as the source, but it does NOT clear the snapshot:
`data_previous` is left exactly as it was, so an undo immediately after a
fresh load reports nothing to undo only when the snapshot was already
empty, and otherwise restores the stale pre-load snapshot. -/
theorem C6_load_replaces_but_keeps_snapshot (d : DataHandler) (path : String)
    (m : Mat) :
    (load_data d path (.ok m)).1.data_txt = some m
    ∧ (load_data d path (.ok m)).1.data_file = some path
    ∧ (load_data d path (.ok m)).1.data_previous = d.data_previous
    ∧ (load_data d path (.ok m)).2 = none
    ∧ (d.data_previous = none →
        apply_undo (load_data d path (.ok m)).1
          = ((load_data d path (.ok m)).1, false))
    ∧ (∀ p, d.data_previous = some p →
        (apply_undo (load_data d path (.ok m)).1).1.data_txt = some p) := by
  refine ⟨rfl, rfl, rfl, rfl, ?_, ?_⟩
  · intro h
    simp [apply_undo, load_data, h]
  · intro p h
    simp [apply_undo, load_data, h]

/-- Witness for the amended C6 on an empty handler. -/
theorem C6_load_replaces_but_keeps_snapshot_witness :
    (⟨none, none, none⟩ : DataHandler).data_previous = none
    ∧ apply_undo (load_data ⟨none, none, none⟩ "p" (.ok [[1,2]])).1
        = ((load_data ⟨none, none, none⟩ "p" (.ok [[1,2]])).1, false) :=
  ⟨rfl, (C6_load_replaces_but_keeps_snapshot ⟨none, none, none⟩ "p" [[1,2]]).2.2.2.2.1 rfl⟩

/-- C2 counterexample: `apply_baseline` takes no snapshot.  On the loaded
matrix `[[3,10],[2,20],[1,30]]` with empty snapshot, one baseline
application with anchor `1` subtracts the assembled baseline (yielding
`[[3,0],[2,-10],[1,30]]`), and the following undo reports "nothing to
undo" and leaves the mutated matrix in place — it is not bit-identical to
the pre-baseline state. -/
theorem C2_counterexample :
    ((apply_undo (apply_baseline ⟨some "a", some [[3,10],[2,20],[1,30]], none⟩ [1]).1).1).data_txt
        = some [[3,0],[2,-10],[1,30]]
    ∧ (apply_undo (apply_baseline ⟨some "a", some [[3,10],[2,20],[1,30]], none⟩ [1]).1).2
        = false
    ∧ (some [[3,0],[2,-10],[1,30]] : Option Mat) ≠ some [[3,10],[2,20],[1,30]] := by
  with_unfolding_all decide

/-- C2 amended: `apply_baseline` does not capture a snapshot (it never
touches `data_previous`), so after one baseline application on a dataset
with an empty snapshot the snapshot is still empty, and the following undo
reports "nothing to undo" and leaves the state unchanged — the baseline
subtraction is not undone.  (Only `apply_smooth` captures a snapshot.) -/
theorem C2_baseline_takes_no_snapshot (d : DataHandler) (pts : List ℚ)
    (h : d.data_previous = none) :
    ((apply_baseline d pts).1).data_previous = none
    ∧ apply_undo ((apply_baseline d pts).1) = ((apply_baseline d pts).1, false) := by
  have h1 : ((apply_baseline d pts).1).data_previous = none := by
    unfold apply_baseline
    cases d.data_txt <;> simp [h]
  refine ⟨h1, ?_⟩
  simp [apply_undo, h1]

/-- Witness for the amended C2. -/
theorem C2_baseline_takes_no_snapshot_witness :
    (⟨some "x", some [[1,2]], none⟩ : DataHandler).data_previous = none
    ∧ ((apply_baseline ⟨some "x", some [[1,2]], none⟩ [0]).1).data_previous = none
    ∧ apply_undo ((apply_baseline ⟨some "x", some [[1,2]], none⟩ [0]).1)
        = ((apply_baseline ⟨some "x", some [[1,2]], none⟩ [0]).1, false) :=
  ⟨rfl, (C2_baseline_takes_no_snapshot ⟨some "x", some [[1,2]], none⟩ [0] rfl).1,
    (C2_baseline_takes_no_snapshot ⟨some "x", some [[1,2]], none⟩ [0] rfl).2⟩

/-- C8 counterexample: the claim says the normalized anchor sequence is
the first sample position followed by the user anchors in ASCENDING order.
The code runs `baseline_points.sort(reverse=True)` — descending — before
prepending `x_data[0]`: for user anchors `[1, 2]` on a matrix whose first
sample is `5`, the mapped sequence is `[5, 2, 1]`, not the claimed
`[5, 1, 2]`. -/
theorem C8_counterexample :
    normalizedAnchors [[5,1],[4,2]] [1,2] = [5,2,1]
    ∧ normalizedAnchors [[5,1],[4,2]] [1,2]
        ≠ normalizedAnchorsSpec [[5,1],[4,2]] [1,2] := by
  with_unfolding_all decide

/-- C8 amended: for every parseable anchor list, `apply_baseline` sorts
the user-supplied anchor positions into DESCENDING order (matching the
descending wavenumber axis the tool displays) and then prepends the
dataset's first independent-variable sample value, so the normalized
anchor sequence used for mapping is the first sample position followed by
the user anchors sorted descending (a permutation of the user anchors,
sorted by `≥`). -/
theorem C8_anchors_sorted_descending (m : Mat) (pts : List ℚ) :
    normalizedAnchors m pts = (col0 m).headD 0 :: sortDesc pts
    ∧ List.Sorted (· ≥ ·) (sortDesc pts)
    ∧ (sortDesc pts).Perm pts :=
  ⟨rfl, List.sorted_insertionSort _ _, List.perm_insertionSort _ _⟩

/-- C9 counterexample: the claim asserts that for EVERY loaded dataset and
anchor list in which two consecutive anchors map to the same row,
`apply_baseline` completes without raising.  On the ascending-x matrix
`[[0,5],[1,6],[2,7]]` with anchors `[2,2,0]`, the consecutive anchors
`2, 2` do map to the same row (index sequence `[0,2,2,0]`), yet the call
raises: the final segment has a negative index difference, so
`np.linspace` gets a negative sample count (`ValueError`), and the matrix
is returned unmodified with the error. -/
theorem C9_counterexample :
    anchorIndices [[0,5],[1,6],[2,7]] [2,2,0] = [0,2,2,0]
    ∧ applyBaselineM [[0,5],[1,6],[2,7]] [2,2,0]
        = ([[0,5],[1,6],[2,7]], some .valueError) := by
  with_unfolding_all decide

/-- C9 amended: whenever the nearest-sample index sequence of the
normalized anchors is non-decreasing (as it is for the intended
descending-wavenumber data, where the descending-sorted anchors map to
non-decreasing rows), `apply_baseline` completes without raising any
error, even when consecutive anchors map to the same row; and a
duplicated anchor pair is a no-op in the segment loop: its zero-length
`np.linspace` segment contributes no correction to any channel. -/
theorem C9_zero_length_segments_safe :
    (∀ (m : Mat) (pts : List ℚ), nonDecreasing (anchorIndices m pts) = true →
      (applyBaselineM m pts).2 = none)
    ∧ (∀ (a : Nat) (v : ℚ) (rest : List (Nat × ℚ)) (acc : List ℚ),
        blLoop ((a, v) :: (a, v) :: rest) acc = blLoop ((a, v) :: rest) acc) := by
  constructor
  · intro m pts h
    obtain ⟨cols, hc⟩ :=
      collectCols_ok ((List.range (widthOf (dropCol m))).map (colOf (dropCol m)))
        (anchorIndices m pts) h
    simp only [applyBaselineM, hc]
  · intro a v rest acc
    have hz : ((a : ℤ) - (a : ℤ)) = 0 := by omega
    have hs : setSlice acc a a [] = acc := by
      unfold setSlice
      simp [List.take_append_drop]
    simp only [blLoop, hz, npLinspace]
    norm_num [hs]

/-- Witness for the amended C9: descending-x data where two anchors map to
the same row, and the segment loop no-op at a concrete duplicated pair. -/
theorem C9_zero_length_segments_safe_witness :
    nonDecreasing (anchorIndices [[2,5],[1,6]] [1,1]) = true
    ∧ (applyBaselineM [[2,5],[1,6]] [1,1]).2 = none
    ∧ blLoop [((0:Nat), (3:ℚ)), (0, 3)] [0,0] = blLoop [(0, 3)] [0,0] :=
  ⟨by with_unfolding_all decide,
    C9_zero_length_segments_safe.1 [[2,5],[1,6]] [1,1] (by with_unfolding_all decide),
    C9_zero_length_segments_safe.2 0 3 [] [0,0]⟩

/-- C4: for every matrix with at least 2 rows and 2 columns, every offset,
channel index and sample row in range, the projected trace satisfies
`trace_i(r) = raw_i(r) - raw_i(second sample row) + offset*i`; at offset 0
every channel's trace value at the second sample row (row index 1) is
exactly 0; and `project(m, o)[i]` is `project(m, 0)[i]` plus the constant
`o*i` pointwise. -/
theorem C4_offset_stacking_projection (m : Mat) (o : ℚ) (i r : Nat)
    (hrows : 2 ≤ m.length) (_hcols : 2 ≤ widthOf m)
    (hi : i < widthOf m - 1) (hr : r < m.length) :
    ((project m o).getD i []).getD r 0
      = entry m r (i + 1) - entry m 1 (i + 1) + o * i
    ∧ ((project m 0).getD i []).getD 1 0 = 0
    ∧ ((project m o).getD i []).getD r 0
      = ((project m 0).getD i []).getD r 0 + o * i := by
  have key : ∀ (u : ℚ) (s : Nat), s < m.length →
      ((project m u).getD i []).getD s 0
        = entry m s (i + 1) - entry m 1 (i + 1) + u * i := by
    intro u s hs
    unfold project
    rw [getD_map_lt _ _ _ _ 0 (by simpa using hi), range_getD _ _ hi]
    unfold trace
    rw [getD_map_lt _ _ _ _ 0 (by simpa [colOf] using hs), colOf_getD _ _ _ hs]
  refine ⟨key o r hr, ?_, ?_⟩
  · rw [key 0 1 (by omega)]
    ring
  · rw [key o r hr, key 0 r hr]
    ring

/-- Witness for C4 on the spec's scenario matrix shape (3 rows, two
channels), channel 1, row 0, offset 5. -/
theorem C4_offset_stacking_projection_witness :
    2 ≤ ([[1000,1,2],[999,3,4],[998,5,6]] : Mat).length
    ∧ 2 ≤ widthOf [[1000,1,2],[999,3,4],[998,5,6]]
    ∧ (((project [[1000,1,2],[999,3,4],[998,5,6]] 5).getD 1 []).getD 0 0
        = entry [[1000,1,2],[999,3,4],[998,5,6]] 0 2
            - entry [[1000,1,2],[999,3,4],[998,5,6]] 1 2 + 5 * 1
      ∧ ((project [[1000,1,2],[999,3,4],[998,5,6]] 0).getD 1 []).getD 1 0 = 0
      ∧ ((project [[1000,1,2],[999,3,4],[998,5,6]] 5).getD 1 []).getD 0 0
        = ((project [[1000,1,2],[999,3,4],[998,5,6]] 0).getD 1 []).getD 0 0
            + 5 * 1) :=
  ⟨by decide, by decide,
    C4_offset_stacking_projection [[1000,1,2],[999,3,4],[998,5,6]] 5 1 0
      (by decide) (by decide) (by decide) (by decide)⟩

/-- C7: the claim says Moving Average smoothing preserves the row and
channel counts with edge padding.  In the code the Moving Average branch
passes the 2-D snapshot channel block `data_previous[:, 1:]` directly to
`np.convolve`, which only accepts 1-D input and raises
`ValueError('object too deep for desired array')` — so for every loaded
dataset and every window the branch raises instead of producing a
smoothed matrix, leaving the current matrix unchanged (with the snapshot
already captured). -/
theorem C7_moving_average_always_raises (sg : Nat → Mat → Mat)
    (gf : Mat → Mat) (w : ℤ) (d : DataHandler) (m : Mat)
    (ht : d.data_txt = some m) :
    (applySmooth sg gf (.movingAverage w) d).2 = some .valueError
    ∧ ((applySmooth sg gf (.movingAverage w) d).1).data_txt = d.data_txt := by
  obtain ⟨f, t, pv⟩ := d
  simp only at ht
  subst ht
  rw [applySmooth_loaded]
  simp [smoothY, npConvolve]

/-- Witness for C7: a loaded 3-row single-channel dataset, window 3. -/
theorem C7_moving_average_always_raises_witness :
    (⟨some "a", some [[0,1],[1,2],[2,3]], none⟩ : DataHandler).data_txt
        = some [[0,1],[1,2],[2,3]]
    ∧ ((applySmooth (fun _ y => y) id (.movingAverage 3)
          ⟨some "a", some [[0,1],[1,2],[2,3]], none⟩).2 = some .valueError
      ∧ ((applySmooth (fun _ y => y) id (.movingAverage 3)
          ⟨some "a", some [[0,1],[1,2],[2,3]], none⟩).1).data_txt
        = (⟨some "a", some [[0,1],[1,2],[2,3]], none⟩ : DataHandler).data_txt) :=
  ⟨rfl, C7_moving_average_always_raises (fun _ y => y) id 3
    ⟨some "a", some [[0,1],[1,2],[2,3]], none⟩ [[0,1],[1,2],[2,3]] rfl⟩

/-- C3: on a loaded dataset with an empty snapshot, smoothing with config
A and then config B (no intervening undo or other mutation) leaves the
current matrix equal to smoothing the original pre-A matrix with B
directly, provided the B pass itself completes (its result denotes a
matrix): the snapshot is captured only when empty, so both B passes read
the same pre-A snapshot.  This holds for every pair of scipy filter
semantics `sg`, `gf`. -/
theorem C3_smoothing_noncumulative (sg : Nat → Mat → Mat) (gf : Mat → Mat)
    (A B : SmoothCase) (f : Option String) (m : Mat)
    (hB : (applySmooth sg gf B ⟨f, some m, none⟩).2 = none) :
    ((applySmooth sg gf B (applySmooth sg gf A ⟨f, some m, none⟩).1).1).data_txt
      = ((applySmooth sg gf B ⟨f, some m, none⟩).1).data_txt := by
  rcases hYB : smoothY sg gf B (dropCol m) with e | yB
  · rw [applySmooth_loaded] at hB
    simp only [Option.getD_none, hYB] at hB
    simp at hB
  · rcases hAsB : npAssignBlock m yB with e | mB
    · rw [applySmooth_loaded] at hB
      simp only [Option.getD_none, hYB, hAsB] at hB
      simp at hB
    · obtain ⟨c, hskel, hs1⟩ : ∃ c, skel c = skel m ∧
          (applySmooth sg gf A ⟨f, some m, none⟩).1 = ⟨f, some c, some m⟩ := by
        rcases hYA : smoothY sg gf A (dropCol m) with e | y
        · refine ⟨m, rfl, ?_⟩
          rw [applySmooth_loaded]
          simp only [Option.getD_none, hYA]
        · rcases hAsA : npAssignBlock m y with e | c2
          · refine ⟨m, rfl, ?_⟩
            rw [applySmooth_loaded]
            simp only [Option.getD_none, hYA, hAsA]
          · refine ⟨c2, npAssignBlock_ok_skel hAsA, ?_⟩
            rw [applySmooth_loaded]
            simp only [Option.getD_none, hYA, hAsA]
      rw [hs1, applySmooth_loaded, applySmooth_loaded]
      simp only [Option.getD_some, Option.getD_none, hYB,
        npAssignBlock_congr yB hskel, hAsB]

/-- Witness for C3: a concrete savgol stand-in that shifts every channel
value by 1, config A = Savitzky-Golay, config B = Gaussian with the
identity filter, on a loaded two-row single-channel matrix. -/
theorem C3_smoothing_noncumulative_witness :
    (applySmooth (fun _ y => y.map (List.map (fun q => q + 1))) id
        SmoothCase.gaussian ⟨none, some [[0,1],[2,3]], none⟩).2 = none
    ∧ ((applySmooth (fun _ y => y.map (List.map (fun q => q + 1))) id
          SmoothCase.gaussian
          (applySmooth (fun _ y => y.map (List.map (fun q => q + 1))) id
            (SmoothCase.savgol 4) ⟨none, some [[0,1],[2,3]], none⟩).1).1).data_txt
      = ((applySmooth (fun _ y => y.map (List.map (fun q => q + 1))) id
          SmoothCase.gaussian ⟨none, some [[0,1],[2,3]], none⟩).1).data_txt :=
  ⟨by with_unfolding_all decide,
    C3_smoothing_noncumulative (fun _ y => y.map (List.map (fun q => q + 1))) id
      (SmoothCase.savgol 4) SmoothCase.gaussian none [[0,1],[2,3]]
      (by with_unfolding_all decide)⟩

/-- C10: neither `apply_baseline` nor `apply_smooth` ever modifies column
0 of the current matrix — both only assign into `[:, 1:]` — so after
either call (for every config, every parseable anchor list, every filter
semantics, success or failure) the independent-variable column is
element-for-element what it was.  (For the baseline the rows are assumed
nonempty, as a numpy 2-D matrix's are: `x_data = data_txt[:, 0]` would
itself fail otherwise.) -/
theorem C10_column0_never_modified (sg : Nat → Mat → Mat) (gf : Mat → Mat)
    (d : DataHandler) (pts : List ℚ) (c : SmoothCase)
    (h : ∀ m ∈ d.data_txt, ∀ r ∈ m, r ≠ []) :
    curCol0 ((apply_baseline d pts).1) = curCol0 d
    ∧ curCol0 ((applySmooth sg gf c d).1) = curCol0 d := by
  obtain ⟨f, t, pv⟩ := d
  cases t with
  | none => exact ⟨rfl, rfl⟩
  | some m =>
    have hne : ∀ r ∈ m, r ≠ [] := h m rfl
    constructor
    · have hb : col0 (applyBaselineM m pts).1 = col0 m := by
        unfold applyBaselineM
        rcases hcc : collectCols
            ((List.range (widthOf (dropCol m))).map (colOf (dropCol m)))
            (anchorIndices m pts) with e | cols
        · simp only [hcc]
        · simp only [hcc]
          refine col0_setBlockRows m _ ?_ hne
          simp [matSub, transposeTo, dropCol]
      simp only [apply_baseline, curCol0]
      simp [hb]
    · rw [applySmooth_loaded]
      rcases hY : smoothY sg gf c (dropCol (pv.getD m)) with e | y
      · simp only [hY]
        rfl
      · rcases hAs : npAssignBlock m y with e | cur2
        · simp only [hY, hAs]
          rfl
        · simp only [hY, hAs, curCol0, Option.map_some]
          exact congrArg some (col0_eq_of_skel (npAssignBlock_ok_skel hAs))

/-- Witness for C10: a loaded two-row dataset with nonempty rows, anchor
list `[1]`, config `None`. -/
theorem C10_column0_never_modified_witness :
    (∀ m ∈ (⟨some "a", some [[2,5],[1,6]], none⟩ : DataHandler).data_txt,
      ∀ r ∈ m, r ≠ [])
    ∧ (curCol0 ((apply_baseline ⟨some "a", some [[2,5],[1,6]], none⟩ [1]).1)
        = curCol0 ⟨some "a", some [[2,5],[1,6]], none⟩
      ∧ curCol0 ((applySmooth (fun _ y => y) id SmoothCase.sNone
          ⟨some "a", some [[2,5],[1,6]], none⟩).1)
        = curCol0 ⟨some "a", some [[2,5],[1,6]], none⟩) :=
  ⟨by with_unfolding_all decide,
    C10_column0_never_modified (fun _ y => y) id
      ⟨some "a", some [[2,5],[1,6]], none⟩ [1] SmoothCase.sNone
      (by with_unfolding_all decide)⟩

end Fittingpy
